import Mathlib

/-!
# Verification of the Backup mirror-and-prune engine

A shallow embedding of the core of the `Backup` repository
(`src/iterator.py`, `src/data.py`) together with proofs about it.

Paths are modelled as plain strings (the source manipulates them with
string operations: `ischild` is a string-prefix test and `split_path`
a string slice).  Filesystem interaction is modelled by an environment
(`FSEnv`) that records, for every primitive call the engine makes
(`os.path.isdir`, `open`, `read`, `write`, ...), the outcome that call
produces; the engine definitions are deterministic functions of that
environment.  Python exceptions that the source lets escape are
modelled with `Except`/explicit fatal values.
-/

namespace Backup

/-! ## Path utilities (iterator.py, bottom of file)

`ischild(parent, child)`: true iff `child[:len(parent)] == parent`
(both arguments are assumed absolute, as in the source's usage where
`os.path.abspath` has already been applied). -/

def ischild (parent child : String) : Bool :=
  if parent.length ≤ child.length then
    decide (String.mk (child.data.take parent.length) = parent)
  else false

/-- `split_path(parent, child)`: the pair `(parent, child[len(parent)+1:])`
when `child` is under `parent`, otherwise `(parent, "")`. -/
def split_path (parent child : String) : String × String :=
  if ischild parent child then (parent, String.mk (child.data.drop (parent.length + 1)))
  else (parent, "")

/-- Model of `os.path.join(a, b)` for the engine's usage (posix separator,
`b` relative). -/
def pjoin (a b : String) : String := a ++ "/" ++ b

/-- Model of `os.path.basename`: the part after the last separator. -/
def basename (p : String) : String :=
  String.mk ((p.data.reverse.takeWhile (fun c => c ≠ '/')).reverse)

/-- Model of `os.path.dirname`: the part before the last separator. -/
def pdirname (p : String) : String :=
  String.mk (((p.data.reverse.dropWhile (fun c => c ≠ '/')).reverse).dropLast)

/-! ## Error taxonomy (`recursivecopy.UnexpectedError` and subclasses)

Each error object of the source carries a message, an optional cause
exception and at most one path-like field (`path`, `filename`,
`argvalue`).  Messages and causes play no semantic role; the model
keeps the variant tag and the path-like field. -/

inductive ErrKind
  | nothingWasDone | pathNotWorking | pathNotThere | pathTooLong | pathOperationFailed
  | wrongArgumentType | wrongArgumentValue | cantOpenFile | accessDenied
  | fileWriteFailure | directoryNotEmpty | unexpected
  deriving DecidableEq, Repr

structure ErrorRecord where
  kind : ErrKind
  path : String
  deriving DecidableEq, Repr

/-- Python exceptions the copier lets escape (fatal for the step).
`tupleAssignTypeError` is the `TypeError` raised by the statement
`dest[1] = werror` in `_copy_file`: `dest` ranges over `dest_files`,
whose elements are built with `tuple(...)` and do not support item
assignment. -/
inductive Fatal
  | exn                     -- an unclassified exception re-raised by the source
  | tupleAssignTypeError    -- TypeError from `dest[1] = werror`
  deriving DecidableEq, Repr

/-! ## Filesystem environment

`current_os()` result and the outcome of each primitive filesystem
call the engine performs.  The environment is a snapshot: it answers
every call the engine could make during one step. -/

inductive OsKind | windows | linux | osx | nosupport
  deriving DecidableEq, Repr

/-- Outcome of a Python `open(path, mode)` call, by exception class.
`FileNotFoundError` and `PermissionError` are the subclasses
`_open_file` catches before the generic `OSError`; any non-`OSError`
exception is re-raised by its bare `except` clause. -/
inductive OpenOutcome
  | ok | notFound | permission | oserror | otherExn
  deriving DecidableEq, Repr

/-- Outcome of a failing `filehandle.read` call in `_read_file`
(`none` in the environment means the read succeeds). -/
inductive ReadFail
  | permission        -- PermissionError
  | errno22InvalidArg -- OSError with errno == 22 and strerror "Invalid argument"
  | oserrorOther      -- any other OSError
  | otherExn          -- non-OSError exception
  deriving DecidableEq, Repr

/-- Outcome of an `os.mkdir` call in `_copy_folder`. -/
inductive MkdirOutcome
  | ok | fileNotFound | oserror
  deriving DecidableEq, Repr

/-- A byte block, as returned by one `read(blocksize)` call. -/
abbrev Block := List Nat

/-- Observable filesystem effects of one copier step. -/
inductive FsEvent
  | write (dest : String) (data : Block)  -- a full block written to `dest`
  | copystat (dest : String)              -- shutil.copystat(source, dest)
  | mkdirs (dir : String)                 -- os.makedirs in _make_parent_folders
  | mkdir (dir : String)                  -- os.mkdir in _copy_folder
  deriving DecidableEq, Repr

def FsEvent.isWrite : FsEvent → Bool
  | .write _ _ => true
  | _ => false

structure FSEnv where
  os : OsKind
  isdir : String → Bool
  isfile : String → Bool
  islink : String → Bool
  pexists : String → Bool
  walk : String → List String        -- output of the `recursive` walker at a root
  openR : String → OpenOutcome       -- open(path, 'rb')
  openW : String → OpenOutcome       -- open(path, 'wb')
  blocks : String → List Block       -- successive successful reads of a source file
  readFail : String → Nat → Option ReadFail  -- read failure at the i-th read, if any
  writeRet : String → Nat → Option Nat -- bytes written at the i-th block (none: exception)
  mkdirOut : String → MkdirOutcome
  existsAfterMkdir : String → Bool   -- os.path.exists(dest) re-checked after mkdir
  copystatOk : String → Bool         -- shutil.copystat(source, dest) succeeds

/-! ## `recursivecopy._open_file` -/

/-- Classification of an `open` outcome, as in `_open_file`: on Windows a
`FileNotFoundError` for a path of length ≥ 256 is a path-too-long;
`PermissionError` is an access-denied; other `OSError` a
can't-open-file; a non-OSError exception is re-raised. -/
def open_file_result (os : OsKind) (path : String) (out : OpenOutcome) :
    Except Fatal (Option ErrorRecord) :=
  match out with
  | .ok => .ok none
  | .notFound =>
      if os = .windows then
        if path.length < 256 then .ok (some ⟨.unexpected, path⟩)
        else .ok (some ⟨.pathTooLong, path⟩)
      else .ok (some ⟨.unexpected, path⟩)
  | .permission => .ok (some ⟨.accessDenied, path⟩)
  | .oserror => .ok (some ⟨.cantOpenFile, path⟩)
  | .otherExn => .error .exn

/-! ## `recursivecopy._copy_file` -/

/-- One entry of `dest_files`: the tuple
`(handle-or-None, error-or-None, destination path)`. -/
structure DestSt where
  handle : Bool              -- dest[0] is not None
  err : Option ErrorRecord   -- dest[1]
  path : String              -- dest[2]
  deriving DecidableEq, Repr

/-- Result of one copier step: a fatal escaped exception, or the
step's emitted error list, together with the filesystem effects
performed before the step ended. -/
structure StepRes where
  fatal : Option Fatal
  errors : List ErrorRecord
  trace : List FsEvent
  deriving DecidableEq, Repr

/-- Open every destination in `'wb'` mode, building `dest_files`.  An
unclassified exception is re-raised (after closing the already open
handles, an effect with no observable trace here). -/
def open_dests (env : FSEnv) : List String → Except Fatal (List DestSt)
  | [] => .ok []
  | d :: rest =>
    match open_file_result env.os d (env.openW d) with
    | .error f => .error f
    | .ok none =>
      match open_dests env rest with
      | .error f => .error f
      | .ok l => .ok (⟨true, none, d⟩ :: l)
    | .ok (some e) =>
      match open_dests env rest with
      | .error f => .error f
      | .ok l => .ok (⟨false, some e, d⟩ :: l)

/-- `do_continue` recomputed at the bottom of the write loop: some
destination has no recorded error and a handle that is still open. -/
def do_continue (dests : List DestSt) : Bool :=
  dests.any (fun d => d.err.isNone && d.handle)

/-- `_write_file` on each still-open target for one block (`idx`-th).
A successful full write appends a write event.  A write exception
re-raises.  A short write makes `_write_file` return a
`FileWriteFailure`; `_copy_file` then sets `werror.path` and executes
`dest[1] = werror` — `dest` is a tuple, so this raises `TypeError`
before the error can be recorded or the handle closed. -/
def write_block (env : FSEnv) (idx : Nat) (data : Block) :
    List DestSt → List FsEvent → Except Fatal (List FsEvent)
  | [], tr => .ok tr
  | d :: rest, tr =>
    if d.handle then
      match env.writeRet d.path idx with
      | none => .error .exn
      | some w =>
        if w = data.length then
          write_block env idx data rest (tr ++ [.write d.path data])
        else .error .tupleAssignTypeError
    else write_block env idx data rest tr

/-- How the write loop ended: an early `return` with an error list
(source read failure), or falling through to the close/copystat
epilogue. -/
inductive LoopExit
  | earlyErrors (errs : List ErrorRecord)
  | finished
  deriving DecidableEq, Repr

/-- Classification of a read failure, as in `_read_file`:
`PermissionError` becomes an `AccessDenied` result; on Windows an
`OSError` with errno 22 / "Invalid argument" becomes a
`CantOpenFile` result (cloud placeholder); everything else
re-raises. -/
def read_fail_result (os : OsKind) (source : String) (f : ReadFail) :
    Except Fatal ErrorRecord :=
  match f with
  | .permission => .ok ⟨.accessDenied, source⟩
  | .errno22InvalidArg =>
      if os = .windows then .ok ⟨.cantOpenFile, source⟩ else .error .exn
  | .oserrorOther => .error .exn
  | .otherExn => .error .exn

/-- The `while do_continue:` loop of `_copy_file`: read one block,
write it to every still-open target, recompute `do_continue`.
`remaining` holds the blocks not yet read (an empty list means the
next read returns `b''`, i.e. EOF); `idx` counts reads. -/
def copy_loop (env : FSEnv) (source : String) (dests : List DestSt) :
    List Block → Nat → List FsEvent → Except Fatal (LoopExit × List FsEvent)
  | remaining, idx, tr =>
    if do_continue dests then
      match env.readFail source idx with
      | some f =>
        match read_fail_result env.os source f with
        | .error e => .error e
        | .ok rerror => .ok (.earlyErrors ((dests.filterMap DestSt.err) ++ [rerror]), tr)
      | none =>
        match remaining with
        | [] => .ok (.finished, tr)   -- ateof: break
        | data :: rest =>
          match write_block env idx data dests tr with
          | .error f => .error f
          | .ok tr1 => copy_loop env source dests rest (idx + 1) tr1
    else .ok (.finished, tr)

/-- The epilogue of `_copy_file`: all handles closed, then for every
destination that now exists as a file, `shutil.copystat`; a copystat
failure re-raises. -/
def copystat_phase (env : FSEnv) : List String → List FsEvent → Except Fatal (List FsEvent)
  | [], tr => .ok tr
  | d :: rest, tr =>
    if env.isfile d then
      if env.copystatOk d then copystat_phase env rest (tr ++ [.copystat d])
      else .error .exn
    else copystat_phase env rest tr

/-- `_check_dest_rectified`: every destination must share the source's
basename. -/
def check_dest_rectified (source : String) (dests : List String) : List ErrorRecord :=
  (dests.filter (fun d => basename source ≠ basename d)).map
    (fun d => (⟨.pathNotWorking, d⟩ : ErrorRecord))

/-- `recursivecopy._copy_file source destinations`, where `destinations`
are the rectified per-destination target file paths. -/
def copy_file (env : FSEnv) (source : String) (destinations : List String) : StepRes :=
  if ¬ env.isfile source then ⟨none, [⟨.pathNotWorking, source⟩], []⟩
  else
    let checkresult := check_dest_rectified source destinations
    if checkresult ≠ [] then ⟨none, checkresult, []⟩
    else
      match open_file_result env.os source (env.openR source) with
      | .error f => ⟨some f, [], []⟩
      | .ok (some e) => ⟨none, [e], []⟩
      | .ok none =>
        match open_dests env destinations with
        | .error f => ⟨some f, [], []⟩
        | .ok dest_files =>
          match copy_loop env source dest_files (env.blocks source) 0 [] with
          | .error f => ⟨some f, [], []⟩
          | .ok (.earlyErrors errs, tr) => ⟨none, errs, tr⟩
          | .ok (.finished, tr) =>
            match copystat_phase env destinations tr with
            | .error f => ⟨some f, [], tr⟩
            | .ok tr1 => ⟨none, dest_files.filterMap DestSt.err, tr1⟩

/-! ## `recursivecopy._copy_folder` -/

def copy_folder (env : FSEnv) (source : String) :
    List String → List ErrorRecord × List FsEvent
  | [] => ([], [])
  | dest :: rest =>
    let here : List ErrorRecord × List FsEvent :=
      if dest ≠ source then
        if ¬ env.pexists dest then
          match env.mkdirOut dest with
          | .fileNotFound => ([], [])
          | .oserror => ([(⟨.unexpected, ""⟩ : ErrorRecord)], [])
          | .ok =>
            if ¬ env.existsAfterMkdir dest then
              ([(⟨.pathOperationFailed, dest⟩ : ErrorRecord)], [.mkdir dest])
            else ([], [.mkdir dest])
        else ([], [])
      else ([(⟨.wrongArgumentValue, dest⟩ : ErrorRecord)], [])
    let later := copy_folder env source rest
    (here.1 ++ later.1, here.2 ++ later.2)

/-- Effects of `_make_parent_folders(dest)`: `os.makedirs` on the
parent directory when it does not already exist (its Boolean result is
ignored by the caller). -/
def make_parent_event (env : FSEnv) (path : String) : List FsEvent :=
  if path.length = 0 then []
  else if ¬ env.isdir (pdirname path) then [.mkdirs (pdirname path)] else []

/-! ## `recursivecopy` — construction and iteration

The `None`/`isinstance` argument checks of `__init__` (AttributeError,
ValueError) guard against ill-typed arguments and are unrepresentable
in the typed embedding; the directory, equality and ancestry checks
are modelled below. -/

structure RCState where
  source : String                                  -- self._source
  destinations : List String                       -- self._destinations (joined)
  predicate : Option (String → String → Bool)      -- self._predicate
  walk : List String                               -- remaining walker output

/-- `recursivecopy._copy_fsobject`: one step of the copier for walker
path `source_path`. -/
def copy_fsobject (env : FSEnv) (st : RCState) (source_path : String) : StepRes :=
  if st.destinations.length = 0 then ⟨none, [⟨.nothingWasDone, ""⟩], []⟩
  else
    let destination_folders :=
      match st.predicate with
      | some pred => st.destinations.filter
          (fun x => pred source_path (pjoin x (split_path st.source source_path).2))
      | none => st.destinations
    if destination_folders.length = 0 then ⟨none, [], []⟩
    else
      let new_dests :=
        if source_path ≠ st.source then
          destination_folders.map (fun d => pjoin d (split_path st.source source_path).2)
        else destination_folders
      if env.isdir source_path || env.isfile source_path || env.islink source_path then
        let tr0 := new_dests.foldl (fun acc d => acc ++ make_parent_event env d) []
        if env.isfile source_path || env.islink source_path then
          let r := copy_file env source_path new_dests
          ⟨r.fatal, r.errors, tr0 ++ r.trace⟩
        else
          let r := copy_folder env source_path new_dests
          ⟨none, r.1, tr0 ++ r.2⟩
      else ⟨none, [⟨.pathNotWorking, source_path⟩], []⟩

inductive InitError
  | notADirectory   -- NotADirectoryError
  | sameFileError   -- shutil.SameFileError
  deriving DecidableEq, Repr

/-- The per-destination checks of `recursivecopy.__init__`, in source
order: each destination must be a directory, must differ from the
source, and must not be in an ancestor/descendant relation with it. -/
def check_dests (env : FSEnv) (root_path : String) : List String → Except InitError Unit
  | [] => .ok ()
  | path :: rest =>
    if ¬ env.isdir path then .error .notADirectory
    else if path = root_path then .error .sameFileError
    else if ischild root_path path || ischild path root_path then .error .sameFileError
    else check_dests env root_path rest

/-- `recursivecopy.__init__`. -/
def rc_init (env : FSEnv) (root_path : String) (destination_folders : List String)
    (predicate : Option (String → String → Bool)) (newdestname : Option String) :
    Except InitError RCState :=
  if ¬ env.isdir root_path then .error .notADirectory
  else
    match check_dests env root_path destination_folders with
    | .error e => .error e
    | .ok _ =>
      .ok { source := root_path
            destinations := destination_folders.map (fun d =>
              pjoin d (match newdestname with | none => basename root_path | some n => n))
            predicate := predicate
            walk := env.walk root_path }

/-- `recursivecopy.__next__`: `none` models `StopIteration`.  With an
empty destination list the iterator stops before touching the walker
or the filesystem. -/
def rc_next (env : FSEnv) (st : RCState) : Option (StepRes × RCState) :=
  if st.destinations.length = 0 then none
  else
    match st.walk with
    | [] => none
    | p :: rest => some (copy_fsobject env { st with walk := rest } p, { st with walk := rest })

/-! ## `copypredicate` and the idempotence model

For the predicate only modification times matter.  `Mtimes` maps each
existing path to its mtime (`none` = the path does not exist).  The
per-file effect of a completed copy (`_copy_file` followed by
`shutil.copystat`) on this view is that the destination now exists
with the source's mtime; `runBackup` is the driver loop of
`algorithms.Backup.execute` restricted to that view: for each
(source file, destination file) pair in walker order it asks the
predicate and, when allowed, copies. -/

abbrev Mtimes := String → Option Int

def getmtime (fs : Mtimes) (p : String) : Int := (fs p).getD 0

/-- `copypredicate.if_source_was_modified_more_recently`. -/
def if_source_was_modified_more_recently (fs : Mtimes) (source destination : String) : Bool :=
  if (fs destination).isSome then decide (getmtime fs source > getmtime fs destination)
  else true

/-- Copying one file and its metadata: the destination's mtime becomes
the source's. -/
def copystep (fs : Mtimes) (s d : String) : Mtimes :=
  fun p => if p = d then fs s else fs p

/-- One driver step for the (source file, destination file) pair `sd`:
copy when the predicate allows it, counting performed writes. -/
def runStep (acc : Mtimes × Nat) (sd : String × String) : Mtimes × Nat :=
  if if_source_was_modified_more_recently acc.1 sd.1 sd.2 then
    (copystep acc.1 sd.1 sd.2, acc.2 + 1)
  else acc

/-- One backup pass over a list of (source file, destination file)
pairs with the modified-more-recently predicate, counting the files
written. -/
def runBackup (fs : Mtimes) (pairs : List (String × String)) : Mtimes × Nat :=
  pairs.foldl runStep (fs, 0)

/-! ## `recursiveprune` -/

/-- `recursiveprune._dest_in_source`: `destination` is the pruned root
(`D/override_or_basename(S)`), `subdir` one walker element under it. -/
def dest_in_source (env : FSEnv) (source destination subdir : String) : Bool :=
  if subdir = destination then true
  else
    let newsource := pjoin source (split_path destination subdir).2
    if env.islink subdir then env.islink newsource
    else if env.isfile subdir then env.isfile newsource && !env.islink newsource
    else if env.isdir subdir then env.isdir newsource && !env.islink newsource
    else false

/-- The root the pruner walks: `D / (newdestname or basename S)`. -/
def prune_root (source destination : String) (newdestname : Option String) : String :=
  match newdestname with
  | none => pjoin destination (basename source)
  | some n => pjoin destination n

/-- `recursiveprune.__init__`: the delete set, collected from a single
walker pass at construction.  Iteration (`__next__`) walks this stored
list and consults nothing else. -/
def recursiveprune_todelete (env : FSEnv) (source destination : String)
    (newdestname : Option String) : List String :=
  let root := prune_root source destination newdestname
  (env.walk root).filter (fun e => ¬ dest_in_source env source root e)

/-! ## `data.BackupProfile` and `data.BackupMapping` -/

structure BackupProfile where
  name : String
  sources : List String
  destinations : List String
  ID : Int
  deriving DecidableEq, Repr

/-- The in-memory source map: an insertion-ordered dictionary, as a
list of (source path, destination basename) pairs with the first
binding of a key authoritative. -/
abbrev SourceMap := List (String × String)

structure BackupMapping where
  sourcemap : SourceMap
  backup_id : Int
  deriving DecidableEq, Repr

namespace BackupMapping

/-- `d[k]` lookup. -/
def dlookup : SourceMap → String → Option String
  | [], _ => none
  | p :: rest, k => if p.1 = k then some p.2 else dlookup rest k

/-- `d[k] = v`: replace the binding in place if the key is present,
append it otherwise (Python dict assignment keeps key positions). -/
def dassign : SourceMap → String → String → SourceMap
  | [], k, v => [(k, v)]
  | p :: rest, k, v => if p.1 = k then (k, v) :: rest else p :: dassign rest k v

/-- `del d[k]`. -/
def derase (m : SourceMap) (k : String) : SourceMap :=
  m.filter (fun p => p.1 ≠ k)

def dkeys (m : SourceMap) : List String := m.map Prod.fst

def dvalues (m : SourceMap) : List String := m.map Prod.snd

/-- One upper-case hex digit. -/
def hexChar (d : Nat) : Char :=
  if d < 10 then Char.ofNat (48 + d) else Char.ofNat (55 + d)

/-- Python `format(n, "03X")`: upper-case hex digits of `n`, left-padded
with `'0'` to at least three characters. -/
def toHex3 (n : Nat) : String :=
  let core := ((Nat.digits 16 n).map hexChar).reverse
  String.mk (List.replicate (3 - core.length) '0' ++ core)

/-- The `while format(key, "03X") in used_keys: key += 1` loop of
`_new_key`, with explicit fuel (`new_key` supplies fuel large enough
that the loop is proved to exit through its condition). -/
def new_key_loop (used : List String) : Nat → Nat → Nat
  | 0, k => k
  | fuel + 1, k => if toHex3 k ∈ used then new_key_loop used fuel (k + 1) else k

/-- An upper bound on the lengths of the strings in `used`. -/
def usedLenBound (used : List String) : Nat :=
  used.foldr (fun s acc => max s.length acc) 0

/-- `BackupMapping._new_key`: starting from `int("0x01", 16) = 1`,
increment until the three-hex rendering is not a used value. -/
def new_key (m : BackupMapping) : String :=
  let used_keys := dvalues m.sourcemap
  toHex3 (new_key_loop used_keys (16 ^ (usedLenBound used_keys + 3) + 1) 1)

/-- `BackupMapping.map_source`: `self.sourcemap[sourcepath] = self._new_key()`. -/
def map_source (m : BackupMapping) (sourcepath : String) : BackupMapping :=
  { m with sourcemap := dassign m.sourcemap sourcepath (new_key m) }

/-- `BackupMapping.generate_map`: store the profile's ID, then map
every source. -/
def generate_map (m : BackupMapping) (profile : BackupProfile) : BackupMapping :=
  profile.sources.foldl map_source { m with backup_id := profile.ID }

/-- `set(self.sourcemap.keys()).difference(set(profile.sources))`,
as a deduplicated filtered list (Python set iteration order is
unspecified; this fixes one representative order). -/
def synchronize_todelete (m : BackupMapping) (profile : BackupProfile) : List String :=
  ((dkeys m.sourcemap).filter (fun k => k ∉ profile.sources)).dedup

/-- `set(profile.sources).difference(set(self.sourcemap.keys()))`. -/
def synchronize_toadd (m : BackupMapping) (profile : BackupProfile) : List String :=
  (profile.sources.filter (fun s => s ∉ dkeys m.sourcemap)).dedup

/-- `BackupMapping.synchronize_map`: drop keys for sources no longer
present, then assign a fresh key to each new source (both difference
sets are computed from the map as it was on entry). -/
def synchronize_map (m : BackupMapping) (profile : BackupProfile) : BackupMapping :=
  let todelete := synchronize_todelete m profile
  let toadd := synchronize_toadd m profile
  let m1 : BackupMapping := { m with sourcemap := todelete.foldl derase m.sourcemap }
  toadd.foldl map_source m1

/-- `BackupMapping.remove_source`. -/
def remove_source (m : BackupMapping) (sourcepath : String) : BackupMapping :=
  if sourcepath ∈ dkeys m.sourcemap then
    { m with sourcemap := derase m.sourcemap sourcepath }
  else m

/-- The sidecar document `{backupid, mapping}` as decoded by
`json.load` plus the two field accesses in `load`; `parse` returns
`none` when `json.load` (or a field access) raises. -/
structure MapDoc where
  backupid : Int
  mapping : SourceMap
  deriving DecidableEq, Repr

structure LoadFS where
  isfile : String → Bool
  islink : String → Bool
  parse : String → Option MapDoc

inductive LoadExn
  | jsonError    -- json.JSONDecodeError / KeyError / type error while decoding
  deriving DecidableEq, Repr

/-- `BackupMapping.load`: only reads the file when it is a regular,
non-symlink file; the decoding itself is not guarded, so a corrupt
document raises. -/
def load (m : BackupMapping) (fs : LoadFS) (filename : String) :
    Except LoadExn (Bool × BackupMapping) :=
  if fs.isfile filename && !fs.islink filename then
    match fs.parse filename with
    | some data => .ok (true, { backup_id := data.backupid, sourcemap := data.mapping })
    | none => .error .jsonError
  else .ok (false, m)

end BackupMapping

/-- The mapping operations a profile lifecycle performs. -/
inductive MapOp
  | gen (profile : BackupProfile)
  | map (source : String)
  | sync (profile : BackupProfile)

def applyOp (m : BackupMapping) : MapOp → BackupMapping
  | .gen p => BackupMapping.generate_map m p
  | .map s => BackupMapping.map_source m s
  | .sync p => BackupMapping.synchronize_map m p

def applyOps (m : BackupMapping) (ops : List MapOp) : BackupMapping :=
  ops.foldl applyOp m

/-- Well-formedness of the dictionary model: keys pairwise distinct
(true of every Python dict) and values pairwise distinct. -/
def MapWF (m : BackupMapping) : Prop :=
  (BackupMapping.dkeys m.sourcemap).Nodup ∧ (BackupMapping.dvalues m.sourcemap).Nodup

instance (m : BackupMapping) : Decidable (MapWF m) := by
  unfold MapWF; infer_instance

/-! ## Specification-side predicate for the pruner

Stated from the specification's words, for comparison with the
implementation's `dest_in_source`: a symlink at the destination
requires a symlink in the source, a file requires a non-symlink file,
a directory requires a non-symlink directory; anything else has no
counterpart. -/

def typeMatches (env : FSEnv) (srcpath dstpath : String) : Bool :=
  if env.islink dstpath then env.islink srcpath
  else if env.isfile dstpath then env.isfile srcpath && !env.islink srcpath
  else if env.isdir dstpath then env.isdir srcpath && !env.islink srcpath
  else false

/-! ## Concrete fixtures

A small Posix world: source directory `/src` holding one 3-byte file
`/src/a.txt`, two destination roots `/d1` and `/d2` whose per-source
subtrees already exist. -/

def envBase : FSEnv where
  os := .linux
  isdir := fun p => p = "/src" || p = "/d1" || p = "/d2" || p = "/d1/src" || p = "/d2/src"
  isfile := fun p => p = "/src/a.txt"
  islink := fun _ => false
  pexists := fun p => p = "/src" || p = "/d1" || p = "/d2" || p = "/src/a.txt"
  walk := fun r => if r = "/src" then ["/src", "/src/a.txt"] else []
  openR := fun _ => .ok
  openW := fun _ => .ok
  blocks := fun p => if p = "/src/a.txt" then [[1, 2, 3]] else []
  readFail := fun _ _ => none
  writeRet := fun _ _ => some 3
  mkdirOut := fun _ => .ok
  existsAfterMkdir := fun _ => true
  copystatOk := fun _ => true

/-- The copier state after `recursivecopy("/src", ["/d1", "/d2"])`,
about to process the file `/src/a.txt`. -/
def stBase : RCState where
  source := "/src"
  destinations := ["/d1/src", "/d2/src"]
  predicate := none
  walk := ["/src/a.txt"]

/-- Writing the single block to `/d1/src/a.txt` returns 2 of its 3
bytes (a short write); the write to `/d2/src/a.txt` succeeds. -/
def envShortWrite : FSEnv :=
  { envBase with writeRet := fun d _ => if d = "/d1/src/a.txt" then some 2 else some 3 }

/-- Opening the source file in `'rb'` mode raises `PermissionError`. -/
def envDenied : FSEnv :=
  { envBase with openR := fun _ => .permission }

/-- A sidecar whose file exists, is not a symlink, and holds corrupt
content (`json.load` raises). -/
def lfsCorrupt : BackupMapping.LoadFS where
  isfile := fun _ => true
  islink := fun _ => false
  parse := fun _ => none

/-- A missing sidecar file. -/
def lfsMissing : BackupMapping.LoadFS where
  isfile := fun _ => false
  islink := fun _ => false
  parse := fun _ => none

/-- Mtime view of the fixture world: only the source file exists. -/
def mtimes0 : Mtimes := fun p => if p = "/src/a.txt" then some 5 else none

/-- The (source file, destination file) pairs of a run of the fixture
profile. -/
def pairs0 : List (String × String) :=
  [("/src/a.txt", "/d1/src/a.txt"), ("/src/a.txt", "/d2/src/a.txt")]

/-- A mapping with three assigned sources. -/
def mapFix : BackupMapping :=
  ⟨[("/src/x", "001"), ("/src/y", "002"), ("/src/z", "003")], 0⟩

/-- The profile after `/src/y` was removed and `/src/w` added. -/
def profFix : BackupProfile :=
  ⟨"p", ["/src/x", "/src/z", "/src/w"], ["/d1", "/d2"], 0⟩

/-- The original three-source profile. -/
def profFix0 : BackupProfile :=
  ⟨"p", ["/src/x", "/src/y", "/src/z"], ["/d1", "/d2"], 0⟩

/-! # Theorems -/

/-- C1: when writing a block to one of several open targets returns a
short write, `_copy_file` does not record a `FileWriteFailure` and does
not continue with the remaining targets: the statement
`dest[1] = werror` raises `TypeError` (the `dest_files` entries are
tuples), which escapes the step and aborts the whole file — the
emitted error list does not exist and no target receives the file.
Here the first destination's single-block write is short and the
second destination's write would succeed. -/
theorem short_write_aborts_step_with_typeerror :
    copy_fsobject envShortWrite stBase "/src/a.txt" =
      ⟨some .tupleAssignTypeError, [], []⟩ := by
  rfl

/-- C2 (counterexample): for a source file whose binary-read open is
denied, the step emits a single `AccessDenied` record in total, not
one per destination: with two destinations the error list has length
one. -/
theorem open_denied_one_error_not_per_destination :
    (copy_fsobject envDenied stBase "/src/a.txt").errors =
        [⟨.accessDenied, "/src/a.txt"⟩] ∧
      stBase.destinations.length = 2 ∧
      (copy_fsobject envDenied stBase "/src/a.txt").errors.length ≠
        stBase.destinations.length := by
  refine ⟨rfl, rfl, ?_⟩
  decide

/-- C2 (amended): for every source file whose open in binary read mode
fails with permission denied, `_copy_file` emits exactly one
`AccessDenied` record for the step (regardless of how many
destinations there are), performs zero filesystem effects, and ends
the step non-fatally (the walk over the remaining paths continues). -/
theorem open_denied_single_access_denied (env : FSEnv) (source : String)
    (dests : List String)
    (hfile : env.isfile source = true)
    (hopen : env.openR source = .permission)
    (hbase : ∀ d ∈ dests, basename source = basename d) :
    copy_file env source dests = ⟨none, [⟨.accessDenied, source⟩], []⟩ := by
  have hchk : check_dest_rectified source dests = [] := by
    unfold check_dest_rectified
    have : dests.filter (fun d => basename source ≠ basename d) = [] := by
      rw [List.filter_eq_nil_iff]
      intro d hd
      simp [hbase d hd]
    rw [this]; rfl
  unfold copy_file
  rw [hfile, hopen, hchk]
  simp [open_file_result]

/-- C2 (witness). -/
theorem open_denied_single_access_denied_witness :
    envDenied.isfile "/src/a.txt" = true ∧
      envDenied.openR "/src/a.txt" = .permission ∧
      copy_file envDenied "/src/a.txt" ["/d1/src/a.txt", "/d2/src/a.txt"] =
        ⟨none, [⟨.accessDenied, "/src/a.txt"⟩], []⟩ :=
  ⟨rfl, rfl,
    open_denied_single_access_denied envDenied "/src/a.txt"
      ["/d1/src/a.txt", "/d2/src/a.txt"] rfl rfl (by decide)⟩

/-- Helper for C6: if some destination fails one of the
per-destination construction checks, `check_dests` reports an error. -/
theorem check_dests_error (env : FSEnv) (root : String) :
    ∀ dests : List String,
      (∃ d ∈ dests, ¬env.isdir d = true ∨ d = root ∨
          ischild root d = true ∨ ischild d root = true) →
      ∃ e, check_dests env root dests = .error e := by
  intro dests
  induction dests with
  | nil => rintro ⟨d, hd, -⟩; cases hd
  | cons a rest ih =>
    rintro ⟨d, hd, hbad⟩
    by_cases h1 : env.isdir a = true
    · by_cases h2 : a = root
      · subst h2
        exact ⟨.sameFileError, by simp [check_dests, h1]⟩
      · by_cases h3 : ischild root a = true ∨ ischild a root = true
        · refine ⟨.sameFileError, ?_⟩
          rcases h3 with h3 | h3 <;> simp [check_dests, h1, h2, h3]
        · push_neg at h3
          have hdr : d ∈ rest := by
            rcases List.mem_cons.mp hd with rfl | hr
            · exfalso
              rcases hbad with hb | hb | hb | hb
              · exact hb h1
              · exact h2 hb
              · exact h3.1 hb
              · exact h3.2 hb
            · exact hr
          obtain ⟨e, he⟩ := ih ⟨d, hdr, hbad⟩
          refine ⟨e, ?_⟩
          simpa [check_dests, h1, h2, h3.1, h3.2] using he
    · exact ⟨.notADirectory, by simp [check_dests, h1]⟩

/-- C6: constructing the copier fails by raising (the result is a
construction-time `Except.error`, never a per-step error list)
whenever the source is not an existing directory, or some destination
is not an existing directory, equals the source, is a child of the
source, or has the source as a child. -/
theorem construction_violation_raises (env : FSEnv) (root : String)
    (dests : List String) (pred : Option (String → String → Bool))
    (nd : Option String)
    (h : ¬env.isdir root = true ∨
      ∃ d ∈ dests, ¬env.isdir d = true ∨ d = root ∨
        ischild root d = true ∨ ischild d root = true) :
    ∃ e, rc_init env root dests pred nd = .error e := by
  by_cases hr : env.isdir root = true
  · rcases h with h | h
    · exact absurd hr h
    · obtain ⟨e, he⟩ := check_dests_error env root dests h
      exact ⟨e, by simp [rc_init, hr, he]⟩
  · exact ⟨.notADirectory, by simp [rc_init, hr]⟩

/-- C6 (witness): a destination inside the source is rejected. -/
theorem construction_violation_raises_witness :
    ischild "/src" "/src/inside" = true ∧
      ∃ e, rc_init envBase "/src" ["/src/inside"] none none = .error e :=
  ⟨by decide,
    construction_violation_raises envBase "/src" ["/src/inside"] none none
      (Or.inr ⟨"/src/inside", by simp, Or.inr (Or.inr (Or.inl (by decide)))⟩)⟩

/-- C7: when a predicate is set and rules out every destination for
the current walker path, the step returns the empty error list (not a
`NothingWasDone` record), performs no filesystem effect, and ends
non-fatally, so iteration advances to the next path. -/
theorem predicate_all_false_empty_step (env : FSEnv) (st : RCState)
    (p : String) (pred : String → String → Bool)
    (hne : st.destinations ≠ [])
    (hp : st.predicate = some pred)
    (hall : ∀ d ∈ st.destinations,
      pred p (pjoin d (split_path st.source p).2) = false) :
    copy_fsobject env st p = ⟨none, [], []⟩ := by
  have hlen : ¬st.destinations.length = 0 := by
    simpa [List.length_eq_zero] using hne
  have hfilt : st.destinations.filter
      (fun x => pred p (pjoin x (split_path st.source p).2)) = [] := by
    rw [List.filter_eq_nil_iff]
    intro d hd
    simp [hall d hd]
  unfold copy_fsobject
  rw [hp]
  simp [hlen, hfilt]

/-- C7 (witness). -/
theorem predicate_all_false_empty_step_witness :
    ({ stBase with predicate := some fun _ _ => false } : RCState).destinations ≠ [] ∧
      copy_fsobject envBase { stBase with predicate := some fun _ _ => false }
        "/src/a.txt" = ⟨none, [], []⟩ :=
  ⟨by simp [stBase],
    predicate_all_false_empty_step envBase _ "/src/a.txt" (fun _ _ => false)
      (by simp [stBase]) rfl (by intro d _; rfl)⟩

/-- C8 (counterexample): loading a sidecar file that exists and is not
a symlink but whose content is corrupt does not fail silently: the
decoding error escapes instead of `load` returning `False` with the
mapping unchanged. -/
theorem load_corrupt_raises :
    BackupMapping.load ⟨[], 0⟩ lfsCorrupt "mapfile" = .error .jsonError ∧
      BackupMapping.load ⟨[], 0⟩ lfsCorrupt "mapfile" ≠ .ok (false, ⟨[], 0⟩) := by
  refine ⟨rfl, ?_⟩
  intro h
  rw [show BackupMapping.load ⟨[], 0⟩ lfsCorrupt "mapfile" =
      .error .jsonError from rfl] at h
  exact Except.noConfusion h

/-- C8 (amended): `load` returns `False` and leaves the mapping
unchanged when the file is missing or a symlink; when the file is
readable, a corrupt document raises (the JSON error is not caught);
a well-formed document replaces `backup_id` and the source map and
`load` returns `True`. -/
theorem load_behavior (m : BackupMapping) (fs : BackupMapping.LoadFS)
    (f : String) :
    (¬(fs.isfile f = true ∧ fs.islink f = false) →
        BackupMapping.load m fs f = .ok (false, m)) ∧
      (fs.isfile f = true → fs.islink f = false → fs.parse f = none →
        BackupMapping.load m fs f = .error .jsonError) ∧
      (∀ doc, fs.isfile f = true → fs.islink f = false →
        fs.parse f = some doc →
        BackupMapping.load m fs f = .ok (true, ⟨doc.mapping, doc.backupid⟩)) := by
  refine ⟨?_, ?_, ?_⟩
  · intro h
    unfold BackupMapping.load
    by_cases hf : fs.isfile f = true
    · by_cases hl : fs.islink f = false
      · exact absurd ⟨hf, hl⟩ h
      · have hl2 : fs.islink f = true := by simpa using hl
        simp [hf, hl2]
    · have hf2 : fs.isfile f = false := by simpa using hf
      simp [hf2]
  · intro h1 h2 h3
    unfold BackupMapping.load
    simp [h1, h2, h3]
  · intro doc h1 h2 h3
    unfold BackupMapping.load
    simp [h1, h2, h3]

/-- C8 (witness): a missing sidecar is a silent failure. -/
theorem load_behavior_witness :
    ¬(lfsMissing.isfile "mapfile" = true ∧ lfsMissing.islink "mapfile" = false) ∧
      BackupMapping.load ⟨[("/s", "001")], 7⟩ lfsMissing "mapfile" =
        .ok (false, ⟨[("/s", "001")], 7⟩) :=
  ⟨by decide, (load_behavior ⟨[("/s", "001")], 7⟩ lfsMissing "mapfile").1 (by decide)⟩

/-- C10: with an existing source directory and an empty destination
list, construction succeeds and iteration immediately stops
(`StopIteration`) without producing any step or filesystem effect. -/
theorem empty_destinations_constructs_and_stops (env : FSEnv)
    (root : String) (pred : Option (String → String → Bool))
    (nd : Option String) (h : env.isdir root = true) :
    ∃ st, rc_init env root [] pred nd = .ok st ∧
      st.destinations = [] ∧ rc_next env st = none := by
  refine ⟨{ source := root, destinations := [], predicate := pred,
            walk := env.walk root }, ?_, rfl, rfl⟩
  simp [rc_init, check_dests, h]

/-- C10 (witness). -/
theorem empty_destinations_constructs_and_stops_witness :
    envBase.isdir "/src" = true ∧
      ∃ st, rc_init envBase "/src" [] none none = .ok st ∧
        st.destinations = [] ∧ rc_next envBase st = none :=
  ⟨rfl, empty_destinations_constructs_and_stops envBase "/src" none none rfl⟩

/-- Helper for C9: away from the pruned root, the implementation's
counterpart test agrees with the specification's type-match
predicate on the corresponding source path. -/
theorem dest_in_source_eq_typeMatches (env : FSEnv) (S root p : String)
    (h : p ≠ root) :
    dest_in_source env S root p =
      typeMatches env (pjoin S (split_path root p).2) p := by
  unfold dest_in_source typeMatches
  simp [h]

/-- C9: a path is in the pruner's delete set iff the walker over
`D/override_or_basename(S)` produced it, it is not that root itself,
and the corresponding path in `S` fails the type match (symlink needs
symlink, file needs non-symlink file, directory needs non-symlink
directory).  The set is the filter of one construction-time walker
pass; iteration reads only this stored list. -/
theorem prune_delete_set_membership (env : FSEnv) (S D : String)
    (nd : Option String) (p : String) :
    p ∈ recursiveprune_todelete env S D nd ↔
      p ∈ env.walk (prune_root S D nd) ∧ p ≠ prune_root S D nd ∧
        typeMatches env (pjoin S (split_path (prune_root S D nd) p).2) p
          = false := by
  unfold recursiveprune_todelete
  rw [List.mem_filter]
  by_cases hp : p = prune_root S D nd
  · subst hp
    simp [dest_in_source]
  · rw [show (decide ¬dest_in_source env S (prune_root S D nd) p = true : Bool)
        = !dest_in_source env S (prune_root S D nd) p by simp]
    rw [dest_in_source_eq_typeMatches env S _ p hp]
    simp [hp]

/-- Helper for C3: the fold of driver steps leaves every path that is
not a destination of the remaining pairs untouched. -/
theorem run_foldl_apply (l : List (String × String)) :
    ∀ (acc : Mtimes × Nat) (p : String), p ∉ l.map Prod.snd →
      (l.foldl runStep acc).1 p = acc.1 p := by
  induction l with
  | nil => intro acc p _; rfl
  | cons sd rest ih =>
    intro acc p hp
    rw [List.map_cons, List.mem_cons] at hp
    push_neg at hp
    rw [List.foldl_cons, ih (runStep acc sd) p hp.2]
    unfold runStep
    by_cases hcond : if_source_was_modified_more_recently acc.1 sd.1 sd.2 = true
    · simp only [hcond, if_true]
      unfold copystep
      simp [hp.1]
    · simp only [Bool.not_eq_true] at hcond
      simp [hcond]

/-- Helper for C3: the modified-more-recently predicate is false
exactly when the destination exists with an mtime at least the
source's. -/
theorem pred_false_iff (fs : Mtimes) (s d : String) :
    if_source_was_modified_more_recently fs s d = false ↔
      (fs d).isSome ∧ getmtime fs s ≤ getmtime fs d := by
  unfold if_source_was_modified_more_recently
  by_cases h : (fs d).isSome <;> simp [h, not_lt]

/-- Helper for C3: after one pass, every pair's destination exists
with an mtime at least its source's. -/
theorem run_establishes (l : List (String × String)) :
    ∀ acc : Mtimes × Nat,
      (∀ sd ∈ l, (acc.1 sd.1).isSome) →
      (∀ sd ∈ l, ∀ sd2 ∈ l, sd.2 ≠ sd2.1) →
      (l.map Prod.snd).Nodup →
      ∀ sd ∈ l, ((l.foldl runStep acc).1 sd.2).isSome ∧
        getmtime (l.foldl runStep acc).1 sd.1 ≤
          getmtime (l.foldl runStep acc).1 sd.2 := by
  induction l with
  | nil => intro acc _ _ _ sd hsd; cases hsd
  | cons sd0 rest ih =>
    intro acc h1 h2 h3 sd hsd
    rw [List.map_cons, List.nodup_cons] at h3
    rw [List.foldl_cons]
    rcases List.mem_cons.mp hsd with rfl | hmem
    · -- the head pair: later steps do not touch its source or destination
      have hd : sd.2 ∉ rest.map Prod.snd := h3.1
      have hs : sd.1 ∉ rest.map Prod.snd := by
        intro hmem2
        obtain ⟨sd2, hsd2, hval⟩ := List.mem_map.mp hmem2
        exact h2 sd2 (List.mem_cons_of_mem _ hsd2) sd (List.mem_cons_self _ _) hval
      have hne : sd.1 ≠ sd.2 :=
        fun h => (h2 sd (List.mem_cons_self _ _) sd (List.mem_cons_self _ _)) h.symm
      unfold getmtime
      rw [run_foldl_apply rest (runStep acc sd) sd.2 hd,
          run_foldl_apply rest (runStep acc sd) sd.1 hs]
      unfold runStep
      by_cases hcond : if_source_was_modified_more_recently acc.1 sd.1 sd.2 = true
      · simp only [hcond, if_true]
        unfold copystep
        have hsome := h1 sd (List.mem_cons_self _ _)
        simp [hne, hsome]
      · simp only [Bool.not_eq_true] at hcond
        obtain ⟨hsome, hle⟩ := (pred_false_iff acc.1 sd.1 sd.2).mp hcond
        unfold getmtime at hle
        simp [hcond, hsome, hle]
    · -- a pair of the tail: apply the induction hypothesis after one step
      have h1' : ∀ sd2 ∈ rest, ((runStep acc sd0).1 sd2.1).isSome := by
        intro sd2 hsd2
        have hne : sd0.2 ≠ sd2.1 :=
          h2 sd0 (List.mem_cons_self _ _) sd2 (List.mem_cons_of_mem _ hsd2)
        unfold runStep
        by_cases hcond : if_source_was_modified_more_recently acc.1 sd0.1 sd0.2 = true
        · simp only [hcond, if_true]
          unfold copystep
          have := h1 sd2 (List.mem_cons_of_mem _ hsd2)
          simp [Ne.symm hne, this]
        · simp only [Bool.not_eq_true] at hcond
          simp [hcond, h1 sd2 (List.mem_cons_of_mem _ hsd2)]
      exact ih (runStep acc sd0) h1'
        (fun a ha b hb => h2 a (List.mem_cons_of_mem _ ha) b (List.mem_cons_of_mem _ hb))
        h3.2 sd hmem

/-- Helper for C3: a pass in which the predicate denies every pair
changes nothing and performs zero writes. -/
theorem all_false_fold_id (l : List (String × String)) :
    ∀ (g : Mtimes) (n : Nat),
      (∀ sd ∈ l, if_source_was_modified_more_recently g sd.1 sd.2 = false) →
      l.foldl runStep (g, n) = (g, n) := by
  induction l with
  | nil => intro g n _; rfl
  | cons sd rest ih =>
    intro g n hall
    rw [List.foldl_cons]
    have hstep : runStep (g, n) sd = (g, n) := by
      unfold runStep
      simp [hall sd (List.mem_cons_self _ _)]
    rw [hstep]
    exact ih g n (fun a ha => hall a (List.mem_cons_of_mem _ ha))

/-- C3: running the backup twice back-to-back over unchanged
filesystems with the modified-more-recently predicate performs zero
writes on the second run: after the first pass copies each file's
mtime to its destination, the predicate is false for every
(source file, destination file) pair, so the second pass writes
nothing.  Hypotheses: every source file exists, no destination file is
also a source file, and the destination files are pairwise distinct. -/
theorem second_run_zero_writes (fs : Mtimes) (ps : List (String × String))
    (h1 : ∀ sd ∈ ps, (fs sd.1).isSome)
    (h2 : ∀ sd ∈ ps, ∀ sd2 ∈ ps, sd.2 ≠ sd2.1)
    (h3 : (ps.map Prod.snd).Nodup) :
    (∀ sd ∈ ps,
      if_source_was_modified_more_recently (runBackup fs ps).1 sd.1 sd.2
        = false) ∧
      (runBackup (runBackup fs ps).1 ps).2 = 0 := by
  have hmain : ∀ sd ∈ ps,
      if_source_was_modified_more_recently (runBackup fs ps).1 sd.1 sd.2
        = false := by
    intro sd hsd
    exact (pred_false_iff _ sd.1 sd.2).mpr
      (run_establishes ps (fs, 0) h1 h2 h3 sd hsd)
  refine ⟨hmain, ?_⟩
  show (ps.foldl runStep ((runBackup fs ps).1, 0)).2 = 0
  rw [all_false_fold_id ps (runBackup fs ps).1 0 hmain]

/-- C3 (witness): the fixture profile re-run writes nothing. -/
theorem second_run_zero_writes_witness :
    (∀ sd ∈ pairs0, (mtimes0 sd.1).isSome) ∧
      (∀ sd ∈ pairs0,
        if_source_was_modified_more_recently (runBackup mtimes0 pairs0).1
          sd.1 sd.2 = false) ∧
      (runBackup (runBackup mtimes0 pairs0).1 pairs0).2 = 0 :=
  ⟨by decide,
    (second_run_zero_writes mtimes0 pairs0 (by decide) (by decide) (by decide)).1,
    (second_run_zero_writes mtimes0 pairs0 (by decide) (by decide) (by decide)).2⟩

/-! ### Dictionary lemmas for the mapping claims -/

open BackupMapping

/-- A filter that keeps every binding of key `k` does not change what
`k` looks up to. -/
theorem dlookup_filter (q : String × String → Bool) (k : String)
    (hq : ∀ v, q (k, v) = true) :
    ∀ l : SourceMap, dlookup (l.filter q) k = dlookup l k := by
  intro l
  induction l with
  | nil => rfl
  | cons p rest ih =>
    rw [List.filter_cons]
    by_cases hp : p.1 = k
    · have hqp : q p = true := by
        have h2 := hq p.2
        rwa [show (k, p.2) = p by rw [← hp]] at h2
      simp [hqp, dlookup, hp, ih]
    · by_cases hqp : q p = true
      · simp [hqp, dlookup, hp, ih]
      · simp [hqp, dlookup, hp, ih]

/-- A filter that drops every binding of key `k` makes `k` look up to
nothing. -/
theorem dlookup_filter_none (q : String × String → Bool) (k : String)
    (hq : ∀ v, q (k, v) = false) :
    ∀ l : SourceMap, dlookup (l.filter q) k = none := by
  intro l
  induction l with
  | nil => rfl
  | cons p rest ih =>
    rw [List.filter_cons]
    by_cases hp : p.1 = k
    · have hqp : q p = false := by
        have h2 := hq p.2
        rwa [show (k, p.2) = p by rw [← hp]] at h2
      simp [hqp, ih]
    · by_cases hqp : q p = true
      · simp [hqp, dlookup, hp, ih]
      · simp [hqp, ih]

theorem dlookup_derase_ne (l : SourceMap) (j k : String) (h : j ≠ k) :
    dlookup (derase l j) k = dlookup l k :=
  dlookup_filter _ k (by simp [Ne.symm h]) l

theorem dlookup_derase_self (l : SourceMap) (k : String) :
    dlookup (derase l k) k = none :=
  dlookup_filter_none _ k (by simp) l

theorem dlookup_foldl_derase_ne (k : String) :
    ∀ td : List String, k ∉ td → ∀ l : SourceMap,
      dlookup (td.foldl derase l) k = dlookup l k := by
  intro td
  induction td with
  | nil => intro _ l; rfl
  | cons t rest ih =>
    intro hk l
    rw [List.mem_cons] at hk
    push_neg at hk
    rw [List.foldl_cons, ih hk.2, dlookup_derase_ne l t k (Ne.symm hk.1)]

theorem dlookup_foldl_derase_none (k : String) :
    ∀ td : List String, ∀ l : SourceMap, dlookup l k = none →
      dlookup (td.foldl derase l) k = none := by
  intro td
  induction td with
  | nil => intro l h; exact h
  | cons t rest ih =>
    intro l h
    rw [List.foldl_cons]
    refine ih (derase l t) ?_
    by_cases ht : t = k
    · subst ht; exact dlookup_derase_self l t
    · rw [dlookup_derase_ne l t k ht]; exact h

theorem dlookup_foldl_derase_mem (k : String) :
    ∀ td : List String, k ∈ td → ∀ l : SourceMap,
      dlookup (td.foldl derase l) k = none := by
  intro td
  induction td with
  | nil => intro h; cases h
  | cons t rest ih =>
    intro hk l
    rw [List.foldl_cons]
    rcases List.mem_cons.mp hk with rfl | hr
    · exact dlookup_foldl_derase_none k rest (derase l k) (dlookup_derase_self l k)
    · exact ih hr (derase l t)

theorem dlookup_dassign_ne (s k v : String) (h : s ≠ k) :
    ∀ l : SourceMap, dlookup (dassign l s v) k = dlookup l k := by
  intro l
  induction l with
  | nil => simp [dassign, dlookup, h]
  | cons p rest ih =>
    unfold dassign
    by_cases hp : p.1 = s
    · -- the binding is replaced in place; its key `s` is not `k`
      rw [if_pos hp]
      unfold dlookup
      rw [if_neg h, if_neg (hp ▸ h : p.1 ≠ k)]
    · rw [if_neg hp]
      unfold dlookup
      by_cases hk : p.1 = k
      · rw [if_pos hk, if_pos hk]
      · rw [if_neg hk, if_neg hk, ih]

/-- Assigning key `k` makes `k` look up to the assigned value. -/
theorem dlookup_dassign_self (k v : String) :
    ∀ l : SourceMap, dlookup (dassign l k v) k = some v := by
  intro l
  induction l with
  | nil => simp [dassign, dlookup]
  | cons p rest ih =>
    unfold dassign
    by_cases hp : p.1 = k
    · rw [if_pos hp]
      unfold dlookup
      rw [if_pos rfl]
    · rw [if_neg hp]
      unfold dlookup
      rw [if_neg hp, ih]

theorem dlookup_dassign_isSome (l : SourceMap) (s k v : String)
    (h : (dlookup l k).isSome = true) :
    (dlookup (dassign l s v) k).isSome = true := by
  by_cases hs : s = k
  · subst hs; rw [dlookup_dassign_self]; rfl
  · rw [dlookup_dassign_ne s k v hs]; exact h

theorem dlookup_eq_none_of_not_mem (k : String) :
    ∀ l : SourceMap, k ∉ dkeys l → dlookup l k = none := by
  intro l
  induction l with
  | nil => intro _; rfl
  | cons p rest ih =>
    intro h
    unfold dkeys at h
    rw [List.map_cons, List.mem_cons] at h
    push_neg at h
    unfold dlookup
    rw [if_neg (fun he => h.1 he.symm)]
    exact ih h.2

theorem dlookup_isSome_of_mem (k : String) :
    ∀ l : SourceMap, k ∈ dkeys l → (dlookup l k).isSome = true := by
  intro l
  induction l with
  | nil => intro h; cases h
  | cons p rest ih =>
    intro h
    unfold dlookup
    by_cases hp : p.1 = k
    · rw [if_pos hp]; rfl
    · rw [if_neg hp]
      refine ih ?_
      unfold dkeys at h
      rw [List.map_cons, List.mem_cons] at h
      rcases h with rfl | h
      · exact absurd rfl hp
      · exact h

/-- Folding `map_source` over sources different from `k` does not
change what `k` looks up to. -/
theorem dlookup_foldl_map_source_ne (k : String) :
    ∀ ta : List String, (∀ s ∈ ta, s ≠ k) → ∀ mm : BackupMapping,
      dlookup (ta.foldl map_source mm).sourcemap k = dlookup mm.sourcemap k := by
  intro ta
  induction ta with
  | nil => intro _ mm; rfl
  | cons s rest ih =>
    intro hne mm
    rw [List.foldl_cons, ih (fun a ha => hne a (List.mem_cons_of_mem _ ha))]
    exact dlookup_dassign_ne s k _ (hne s (List.mem_cons_self _ _)) mm.sourcemap

theorem dlookup_foldl_map_source_isSome (k : String) :
    ∀ ta : List String, ∀ mm : BackupMapping,
      (dlookup mm.sourcemap k).isSome = true →
      (dlookup (ta.foldl map_source mm).sourcemap k).isSome = true := by
  intro ta
  induction ta with
  | nil => intro mm h; exact h
  | cons s rest ih =>
    intro mm h
    rw [List.foldl_cons]
    exact ih (map_source mm s) (dlookup_dassign_isSome _ s k _ h)

theorem dlookup_foldl_map_source_mem (k : String) :
    ∀ ta : List String, k ∈ ta → ∀ mm : BackupMapping,
      (dlookup (ta.foldl map_source mm).sourcemap k).isSome = true := by
  intro ta
  induction ta with
  | nil => intro h; cases h
  | cons s rest ih =>
    intro hk mm
    rw [List.foldl_cons]
    rcases List.mem_cons.mp hk with rfl | hr
    · refine dlookup_foldl_map_source_isSome k rest (map_source mm k) ?_
      show (dlookup (dassign mm.sourcemap k (new_key mm)) k).isSome = true
      rw [dlookup_dassign_self]; rfl
    · exact ih hr (map_source mm s)

/-- C4: one `synchronize_map` call keeps the code of every surviving
source unchanged, removes exactly the codes of sources no longer in
the profile, and gives every (and only every) profile source a code.
Applied along any sequence of calls this is the claim's mapping
stability. -/
theorem synchronize_map_stability (m : BackupMapping) (p : BackupProfile) :
    (∀ k, k ∈ dkeys m.sourcemap → k ∈ p.sources →
      dlookup (synchronize_map m p).sourcemap k = dlookup m.sourcemap k) ∧
      (∀ k, k ∉ p.sources →
        dlookup (synchronize_map m p).sourcemap k = none) ∧
      (∀ k, k ∈ p.sources →
        (dlookup (synchronize_map m p).sourcemap k).isSome = true) := by
  have mem_td : ∀ k, k ∈ synchronize_todelete m p ↔
      k ∈ dkeys m.sourcemap ∧ k ∉ p.sources := by
    intro k
    simp [synchronize_todelete, List.mem_dedup, List.mem_filter]
  have mem_ta : ∀ k, k ∈ synchronize_toadd m p ↔
      k ∈ p.sources ∧ k ∉ dkeys m.sourcemap := by
    intro k
    simp [synchronize_toadd, List.mem_dedup, List.mem_filter]
  have hgoal : (synchronize_map m p).sourcemap =
      ((synchronize_toadd m p).foldl map_source
        { m with sourcemap :=
            (synchronize_todelete m p).foldl derase m.sourcemap }).sourcemap :=
    rfl
  refine ⟨?_, ?_, ?_⟩
  · intro k hkm hks
    rw [hgoal]
    have h1 : ∀ s ∈ synchronize_toadd m p, s ≠ k := by
      intro s hs he
      subst he
      exact ((mem_ta s).mp hs).2 hkm
    have h2 : k ∉ synchronize_todelete m p := by
      intro hk
      exact ((mem_td k).mp hk).2 hks
    rw [dlookup_foldl_map_source_ne k _ h1, dlookup_foldl_derase_ne k _ h2]
  · intro k hks
    rw [hgoal]
    have h1 : ∀ s ∈ synchronize_toadd m p, s ≠ k := by
      intro s hs he
      subst he
      exact hks ((mem_ta s).mp hs).1
    rw [dlookup_foldl_map_source_ne k _ h1]
    by_cases hkm : k ∈ dkeys m.sourcemap
    · exact dlookup_foldl_derase_mem k _ ((mem_td k).mpr ⟨hkm, hks⟩) m.sourcemap
    · exact dlookup_foldl_derase_none k _ m.sourcemap
        (dlookup_eq_none_of_not_mem k m.sourcemap hkm)
  · intro k hks
    rw [hgoal]
    by_cases hkm : k ∈ dkeys m.sourcemap
    · refine dlookup_foldl_map_source_isSome k _ _ ?_
      have h2 : k ∉ synchronize_todelete m p := by
        intro hk
        exact ((mem_td k).mp hk).2 hks
      show (dlookup ((synchronize_todelete m p).foldl derase m.sourcemap) k).isSome = true
      rw [dlookup_foldl_derase_ne k _ h2]
      exact dlookup_isSome_of_mem k m.sourcemap hkm
    · exact dlookup_foldl_map_source_mem k _ ((mem_ta k).mpr ⟨hks, hkm⟩) _

/-- C4 (witness): on the fixture, the code of the surviving source
`/src/x` is unchanged by a synchronize that removes `/src/y` and adds
`/src/w`. -/
theorem synchronize_map_stability_witness :
    "/src/x" ∈ dkeys mapFix.sourcemap ∧ "/src/x" ∈ profFix.sources ∧
      dlookup (synchronize_map mapFix profFix).sourcemap "/src/x" =
        dlookup mapFix.sourcemap "/src/x" :=
  ⟨by decide, by decide,
    (synchronize_map_stability mapFix profFix).1 "/src/x" (by decide) (by decide)⟩

/-! ### Lemmas for the key-uniqueness claim -/

theorem toHex3_length (n : Nat) :
    (toHex3 n).length = max 3 (Nat.digits 16 n).length := by
  unfold toHex3
  rw [String.length_mk, List.length_append, List.length_replicate,
    List.length_reverse, List.length_map]
  omega

theorem length_le_usedLenBound (used : List String) (s : String)
    (h : s ∈ used) : s.length ≤ usedLenBound used := by
  induction used with
  | nil => cases h
  | cons a rest ih =>
    unfold usedLenBound
    rw [List.foldr_cons]
    rcases List.mem_cons.mp h with rfl | hr
    · exact le_max_left _ _
    · exact le_trans (ih hr) (le_max_right _ _)

/-- `toHex3 (16 ^ (usedLenBound used + 3))` is longer than every used
string, hence unused. -/
theorem toHex3_pow_unused (used : List String) :
    toHex3 (16 ^ (usedLenBound used + 3)) ∉ used := by
  intro hmem
  have h1 : (toHex3 (16 ^ (usedLenBound used + 3))).length ≤ usedLenBound used :=
    length_le_usedLenBound _ _ hmem
  have h2 : (toHex3 (16 ^ (usedLenBound used + 3))).length =
      usedLenBound used + 4 := by
    rw [toHex3_length]
    have hd : (Nat.digits 16 (16 ^ (usedLenBound used + 3))).length =
        usedLenBound used + 4 := by
      rw [Nat.digits_len 16 _ (by norm_num) (Nat.pos_iff_ne_zero.mp
        (Nat.pos_pow_of_pos _ (by norm_num)))]
      rw [Nat.log_pow (by norm_num)]
    omega
  omega

/-- The `_new_key` loop returns the least `k` at or after its start
whose rendering is unused, provided an unused rendering exists within
the fuel. -/
theorem new_key_loop_spec (used : List String) :
    ∀ fuel k : Nat, (∃ j, k ≤ j ∧ j < k + fuel ∧ toHex3 j ∉ used) →
      k ≤ new_key_loop used fuel k ∧
        toHex3 (new_key_loop used fuel k) ∉ used ∧
        ∀ j, k ≤ j → j < new_key_loop used fuel k → toHex3 j ∈ used := by
  intro fuel
  induction fuel with
  | zero =>
    rintro k ⟨j, hj1, hj2, -⟩
    omega
  | succ fuel ih =>
    intro k hex
    unfold new_key_loop
    by_cases hk : toHex3 k ∈ used
    · rw [if_pos hk]
      have hex2 : ∃ j, k + 1 ≤ j ∧ j < (k + 1) + fuel ∧ toHex3 j ∉ used := by
        obtain ⟨j, h1, h2, h3⟩ := hex
        refine ⟨j, ?_, by omega, h3⟩
        rcases Nat.eq_or_lt_of_le h1 with rfl | h
        · exact absurd hk h3
        · omega
      obtain ⟨ih1, ih2, ih3⟩ := ih (k + 1) hex2
      refine ⟨by omega, ih2, ?_⟩
      intro j hj1 hj2
      rcases Nat.eq_or_lt_of_le hj1 with rfl | h
      · exact hk
      · exact ih3 j (by omega) hj2
    · rw [if_neg hk]
      exact ⟨le_refl k, hk, fun j h1 h2 => absurd (lt_of_le_of_lt h1 h2) (lt_irrefl k)⟩

/-- `_new_key` returns the rendering of the smallest integer at or
above `0x001` whose rendering is not a used value. -/
theorem new_key_spec (m : BackupMapping) :
    ∃ r, new_key m = toHex3 r ∧ 1 ≤ r ∧
      toHex3 r ∉ dvalues m.sourcemap ∧
      ∀ j, 1 ≤ j → j < r → toHex3 j ∈ dvalues m.sourcemap := by
  have hex : ∃ j, 1 ≤ j ∧
      j < 1 + (16 ^ (usedLenBound (dvalues m.sourcemap) + 3) + 1) ∧
      toHex3 j ∉ dvalues m.sourcemap := by
    refine ⟨16 ^ (usedLenBound (dvalues m.sourcemap) + 3),
      Nat.pos_pow_of_pos _ (by norm_num), by omega,
      toHex3_pow_unused (dvalues m.sourcemap)⟩
  obtain ⟨h1, h2, h3⟩ := new_key_loop_spec (dvalues m.sourcemap) _ 1 hex
  exact ⟨_, rfl, h1, h2, h3⟩

theorem new_key_unused (m : BackupMapping) :
    new_key m ∉ dvalues m.sourcemap := by
  obtain ⟨r, hr, -, hun, -⟩ := new_key_spec m
  rw [hr]
  exact hun

/-- Values of an assignment come from the old values or the assigned
value. -/
theorem mem_dvalues_dassign (k v x : String) :
    ∀ l : SourceMap, x ∈ dvalues (dassign l k v) → x ∈ dvalues l ∨ x = v := by
  intro l
  induction l with
  | nil =>
    intro h
    simp [dassign, dvalues] at h
    exact Or.inr h
  | cons p rest ih =>
    intro h
    unfold dassign at h
    by_cases hp : p.1 = k
    · rw [if_pos hp] at h
      unfold dvalues at h
      rw [List.map_cons, List.mem_cons] at h
      rcases h with rfl | h
      · exact Or.inr rfl
      · exact Or.inl (by unfold dvalues; rw [List.map_cons]; exact List.mem_cons_of_mem _ h)
    · rw [if_neg hp] at h
      unfold dvalues at h
      rw [List.map_cons, List.mem_cons] at h
      rcases h with rfl | h
      · exact Or.inl (by unfold dvalues; rw [List.map_cons]; exact List.mem_cons_self _ _)
      · rcases ih h with h2 | h2
        · exact Or.inl (by unfold dvalues; rw [List.map_cons]; exact List.mem_cons_of_mem _ h2)
        · exact Or.inr h2

/-- Assigning a value that is not yet used keeps the values pairwise
distinct. -/
theorem nodup_dvalues_dassign (k v : String) :
    ∀ l : SourceMap, (dvalues l).Nodup → v ∉ dvalues l →
      (dvalues (dassign l k v)).Nodup := by
  intro l
  induction l with
  | nil => intro _ _; simp [dassign, dvalues]
  | cons p rest ih =>
    intro hnd hv
    unfold dvalues at hnd hv
    rw [List.map_cons, List.nodup_cons] at hnd
    rw [List.map_cons, List.mem_cons] at hv
    push_neg at hv
    unfold dassign
    by_cases hp : p.1 = k
    · rw [if_pos hp]
      unfold dvalues
      rw [List.map_cons, List.nodup_cons]
      exact ⟨hv.2, hnd.2⟩
    · rw [if_neg hp]
      unfold dvalues
      rw [List.map_cons, List.nodup_cons]
      constructor
      · intro hmem
        rcases mem_dvalues_dassign k v p.2 rest hmem with h2 | h2
        · exact hnd.1 h2
        · exact hv.1 h2.symm
      · exact ih hnd.2 hv.2

/-- The fold of deletions only removes bindings. -/
theorem foldl_derase_sublist :
    ∀ (td : List String) (l : SourceMap), (td.foldl derase l).Sublist l := by
  intro td
  induction td with
  | nil => intro l; exact List.Sublist.refl l
  | cons t rest ih =>
    intro l
    rw [List.foldl_cons]
    exact List.Sublist.trans (ih (derase l t)) (List.filter_sublist l)

/-- `map_source` preserves well-formedness: the fresh value is unused
and the key set gains at most the new key. -/
theorem mapWF_map_source (m : BackupMapping) (s : String) (h : MapWF m) :
    MapWF (map_source m s) := by
  obtain ⟨hk, hv⟩ := h
  constructor
  · show (dkeys (dassign m.sourcemap s (new_key m))).Nodup
    have : ∀ l : SourceMap, (dkeys l).Nodup → ∀ v,
        (dkeys (dassign l s v)).Nodup := by
      intro l
      induction l with
      | nil => intro _ v; simp [dassign, dkeys]
      | cons p rest ih =>
        intro hnd v
        unfold dkeys at hnd
        rw [List.map_cons, List.nodup_cons] at hnd
        unfold dassign
        by_cases hp : p.1 = s
        · rw [if_pos hp]
          unfold dkeys
          rw [List.map_cons, List.nodup_cons]
          exact ⟨hp ▸ hnd.1, hnd.2⟩
        · rw [if_neg hp]
          unfold dkeys
          rw [List.map_cons, List.nodup_cons]
          constructor
          · intro hmem
            -- keys of the assignment are the old keys possibly with `s`
            have : ∀ l2 : SourceMap, ∀ x, x ∈ dkeys (dassign l2 s v) →
                x ∈ dkeys l2 ∨ x = s := by
              intro l2
              induction l2 with
              | nil => intro x hx; simp [dassign, dkeys] at hx; exact Or.inr hx
              | cons q qrest ihq =>
                intro x hx
                unfold dassign at hx
                by_cases hq : q.1 = s
                · rw [if_pos hq] at hx
                  unfold dkeys at hx
                  rw [List.map_cons, List.mem_cons] at hx
                  rcases hx with rfl | hx
                  · exact Or.inr rfl
                  · exact Or.inl (by unfold dkeys; rw [List.map_cons]; exact List.mem_cons_of_mem _ hx)
                · rw [if_neg hq] at hx
                  unfold dkeys at hx
                  rw [List.map_cons, List.mem_cons] at hx
                  rcases hx with rfl | hx
                  · exact Or.inl (by unfold dkeys; rw [List.map_cons]; exact List.mem_cons_self _ _)
                  · rcases ihq x hx with h2 | h2
                    · exact Or.inl (by unfold dkeys; rw [List.map_cons]; exact List.mem_cons_of_mem _ h2)
                    · exact Or.inr h2
            rcases this rest p.1 hmem with h2 | h2
            · exact hnd.1 h2
            · exact hp h2
          · exact ih hnd.2 v
    exact this m.sourcemap hk (new_key m)
  · exact nodup_dvalues_dassign s (new_key m) m.sourcemap hv (new_key_unused m)

theorem mapWF_foldl_map_source :
    ∀ (l : List String) (m : BackupMapping), MapWF m →
      MapWF (l.foldl map_source m) := by
  intro l
  induction l with
  | nil => intro m h; exact h
  | cons s rest ih =>
    intro m h
    rw [List.foldl_cons]
    exact ih (map_source m s) (mapWF_map_source m s h)

theorem mapWF_generate_map (m : BackupMapping) (p : BackupProfile)
    (h : MapWF m) : MapWF (generate_map m p) :=
  mapWF_foldl_map_source p.sources { m with backup_id := p.ID } h

theorem mapWF_synchronize_map (m : BackupMapping) (p : BackupProfile)
    (h : MapWF m) : MapWF (synchronize_map m p) := by
  refine mapWF_foldl_map_source (synchronize_toadd m p) _ ?_
  have hsub := foldl_derase_sublist (synchronize_todelete m p) m.sourcemap
  exact ⟨(hsub.map Prod.fst).nodup h.1, (hsub.map Prod.snd).nodup h.2⟩

theorem mapWF_applyOps :
    ∀ (ops : List MapOp) (m : BackupMapping), MapWF m →
      MapWF (applyOps m ops) := by
  intro ops
  induction ops with
  | nil => intro m h; exact h
  | cons op rest ih =>
    intro m h
    show MapWF (rest.foldl applyOp (applyOp m op))
    refine ih (applyOp m op) ?_
    cases op with
    | gen p => exact mapWF_generate_map m p h
    | map s => exact mapWF_map_source m s h
    | sync p => exact mapWF_synchronize_map m p h

/-- C5: starting from any well-formed mapping (in particular the
fresh empty one), after any sequence of `generate_map`, `map_source`
and `synchronize_map` operations all values are pairwise distinct, and
the value `_new_key` would assign next is the three-upper-hex-digit
rendering of the smallest integer at or above `0x001` whose rendering
is not currently a value (this is the value every assignment performed
by those operations receives at its own intermediate state). -/
theorem mapping_values_distinct_and_least (ops : List MapOp)
    (m : BackupMapping) (h : MapWF m) :
    (dvalues (applyOps m ops).sourcemap).Nodup ∧
      ∃ r, new_key (applyOps m ops) = toHex3 r ∧ 1 ≤ r ∧
        toHex3 r ∉ dvalues (applyOps m ops).sourcemap ∧
        ∀ j, 1 ≤ j → j < r →
          toHex3 j ∈ dvalues (applyOps m ops).sourcemap :=
  ⟨(mapWF_applyOps ops m h).2, new_key_spec _⟩

/-- C5 (witness): generate then synchronize on the fixture profiles,
starting from the empty mapping. -/
theorem mapping_values_distinct_and_least_witness :
    MapWF ⟨[], 0⟩ ∧
      ((dvalues (applyOps ⟨[], 0⟩ [.gen profFix0, .sync profFix]).sourcemap).Nodup ∧
        ∃ r, new_key (applyOps ⟨[], 0⟩ [.gen profFix0, .sync profFix]) = toHex3 r ∧
          1 ≤ r ∧
          toHex3 r ∉ dvalues (applyOps ⟨[], 0⟩ [.gen profFix0, .sync profFix]).sourcemap ∧
          ∀ j, 1 ≤ j → j < r →
            toHex3 j ∈ dvalues (applyOps ⟨[], 0⟩ [.gen profFix0, .sync profFix]).sourcemap) :=
  ⟨by decide, mapping_values_distinct_and_least [.gen profFix0, .sync profFix] ⟨[], 0⟩ (by decide)⟩

end Backup
